import Mathlib

/-!
Verification of the Archiver storage-proof core (segment selector, sample
hasher, sampling-offset generator, control loop, turn poller) and of the
pinned-buffer abstraction, as a shallow embedding of the Rust sources
`core/src/archiver.rs` and `perf/src/cuda_runtime.rs`.

Bytes are modelled as `Nat` values below 256.  Byte strings are modelled
as a length together with the big-endian `Nat` value of the string
(`ByteSeq`); this keeps hashing kernel-computable.  u64 arithmetic is
`Nat` with explicit `% 2 ^ 64` where overflow matters, and fallible
operations return `Option` / `Except`.
-/

set_option exponentiation.threshold 5000

set_option maxRecDepth 100000

set_option maxHeartbeats 4000000

/-! ### Byte strings -/

/-- A byte string: its length and its value as a base-256 numeral, first
byte most significant.  A well-formed string satisfies `Valid`. -/
structure ByteSeq where
  len : Nat
  val : Nat
deriving DecidableEq

def ByteSeq.empty : ByteSeq := ⟨0, 0⟩

def ByteSeq.Valid (x : ByteSeq) : Prop := x.val < 256 ^ x.len

/-- Concatenation of byte strings. -/
def ByteSeq.append (x y : ByteSeq) : ByteSeq :=
  ⟨x.len + y.len, x.val * 256 ^ y.len + y.val⟩

/-- The byte string formed by a list of bytes (used to state test
vectors readably). -/
def ByteSeq.ofList (l : List Nat) : ByteSeq :=
  ⟨l.length, l.foldl (fun acc b => acc * 256 + b % 256) 0⟩

/-! ### SHA-256

The Archiver's `Hasher` (solana_sdk::hash::Hasher) is streaming SHA-256;
`sample_file` feeds each 32-byte sample into it and returns the final
digest.  We embed full SHA-256: 32-bit words are `Nat` below `2 ^ 32`,
a block is a 512-bit `Nat`, the message schedule and the round-constant
table are 2048-bit `Nat` registers holding 64 words. -/

def UINT32_MOD : Nat := 4294967296

/-- Right-rotation of a 32-bit word by `n` bits. -/
def rotr (n x : Nat) : Nat := x / 2 ^ n + x % 2 ^ n * 2 ^ (32 - n)

/-- The four sigma functions and the choice/majority functions are
written with bare `Nat` primitives and pre-computed powers of two so
that kernel evaluation of a digest needs no typeclass unfolding
(`bigSigma0_eq_rotr` and friends below identify them with their
rotation form). -/
def bigSigma0 (x : Nat) : Nat :=
  Nat.xor (Nat.xor
    (Nat.add (Nat.div x 4) (Nat.mul (Nat.mod x 4) 1073741824))
    (Nat.add (Nat.div x 8192) (Nat.mul (Nat.mod x 8192) 524288)))
    (Nat.add (Nat.div x 4194304) (Nat.mul (Nat.mod x 4194304) 1024))

def bigSigma1 (x : Nat) : Nat :=
  Nat.xor (Nat.xor
    (Nat.add (Nat.div x 64) (Nat.mul (Nat.mod x 64) 67108864))
    (Nat.add (Nat.div x 2048) (Nat.mul (Nat.mod x 2048) 2097152)))
    (Nat.add (Nat.div x 33554432) (Nat.mul (Nat.mod x 33554432) 128))

def smallSigma0 (x : Nat) : Nat :=
  Nat.xor (Nat.xor
    (Nat.add (Nat.div x 128) (Nat.mul (Nat.mod x 128) 33554432))
    (Nat.add (Nat.div x 262144) (Nat.mul (Nat.mod x 262144) 16384)))
    (Nat.div x 8)

def smallSigma1 (x : Nat) : Nat :=
  Nat.xor (Nat.xor
    (Nat.add (Nat.div x 131072) (Nat.mul (Nat.mod x 131072) 32768))
    (Nat.add (Nat.div x 524288) (Nat.mul (Nat.mod x 524288) 8192)))
    (Nat.div x 1024)

def shaCh (x y z : Nat) : Nat :=
  Nat.xor (Nat.land x y) (Nat.land (Nat.xor x 4294967295) z)

def shaMaj (x y z : Nat) : Nat :=
  Nat.xor (Nat.xor (Nat.land x y) (Nat.land x z)) (Nat.land y z)

/-- The 64 SHA-256 round constants, packed big-endian into one 2048-bit
register (`k0` in the most significant word). -/
def sha256K : Nat :=
  0x428a2f9871374491b5c0fbcfe9b5dba53956c25b59f111f1923f82a4ab1c5ed5d807aa9812835b01243185be550c7dc372be5d7480deb1fe9bdc06a7c19bf174e49b69c1efbe47860fc19dc6240ca1cc2de92c6f4a7484aa5cb0a9dc76f988da983e5152a831c66db00327c8bf597fc7c6e00bf3d5a7914706ca63511429296727b70a852e1b21384d2c6dfc53380d13650a7354766a0abb81c2c92e92722c85a2bfe8a1a81a664bc24b8b70c76c51a3d192e819d6990624f40e3585106aa07019a4c1161e376c082748774c34b0bcb5391c0cb34ed8aa4a5b9cca4f682e6ff3748f82ee78a5636f84c878148cc7020890befffaa4506cebbef9a3f7c67178f2

/-- One message-schedule extension step.  The schedule register keeps
the newest word in the least significant position, so `w[i-2]`,
`w[i-7]`, `w[i-15]`, `w[i-16]` sit 1, 6, 14 and 15 words up (the
literal divisors are 2^480, 2^448, 2^192 and 2^32). -/
def schedStep (ws : Nat) : Nat :=
  Nat.mod (Nat.add (Nat.add (Nat.add
    (Nat.mod (Nat.div ws 0x1000000000000000000000000000000000000000000000000000000000000000000000000000000000000000000000000000000000000000000000000) 4294967296)
    (smallSigma0 (Nat.mod (Nat.div ws 0x10000000000000000000000000000000000000000000000000000000000000000000000000000000000000000000000000000000000000000) 4294967296)))
    (Nat.mod (Nat.div ws 0x1000000000000000000000000000000000000000000000000) 4294967296))
    (smallSigma1 (Nat.mod (Nat.div ws 0x100000000) 4294967296)))
    4294967296

/-- Force a numeric value before continuing; the identity on `a`
(`seqN_eq` below), inserted so that kernel evaluation of the hash
towers runs in constant stack space. -/
def seqN {α : Type} (n : Nat) (a : α) : α :=
  Nat.rec a (fun _ _ => a) n

/-- Four schedule-extension steps at once. -/
def extendSched4 (ws : Nat) : Nat :=
  let ws1 := Nat.add (Nat.mul ws 4294967296) (schedStep ws)
  let ws2 := Nat.add (Nat.mul ws1 4294967296) (schedStep ws1)
  let ws3 := Nat.add (Nat.mul ws2 4294967296) (schedStep ws2)
  Nat.add (Nat.mul ws3 4294967296) (schedStep ws3)

/-- `extendSched n` performs `4 * n` schedule-extension steps
(`extendSched 12` grows the 16 block words to all 64). -/
def extendSched : Nat → Nat → Nat
  | 0, ws => ws
  | n + 1, ws => seqN ws (extendSched n (extendSched4 ws))

structure Sha256State where
  a : Nat
  b : Nat
  c : Nat
  d : Nat
  e : Nat
  f : Nat
  g : Nat
  h : Nat
deriving DecidableEq

def roundFn (s : Sha256State) (k : Nat) (w : Nat) : Sha256State :=
  let t1 := Nat.mod (Nat.add (Nat.add (Nat.add (Nat.add s.h (bigSigma1 s.e))
    (shaCh s.e s.f s.g)) k) w) 4294967296
  let t2 := Nat.mod (Nat.add (bigSigma0 s.a) (shaMaj s.a s.b s.c)) 4294967296
  ⟨Nat.mod (Nat.add t1 t2) 4294967296, s.a, s.b, s.c,
   Nat.mod (Nat.add s.d t1) 4294967296, s.e, s.f, s.g⟩

/-- The 64 compression rounds.  `kb` and `wb` are 64-word registers with
round 0 in the most significant word; each step consumes the top word
and shifts the register up. -/
def Sha256State.force {α : Type} (s : Sha256State) (a : α) : α :=
  seqN s.a (seqN s.b (seqN s.c (seqN s.d
    (seqN s.e (seqN s.f (seqN s.g (seqN s.h a)))))))

/-- Four compression rounds at once: consume the top word of each
64-word register (the literal divisor is 2^2016) and shift it up. -/
def rounds4 (kb wb : Nat) (s : Sha256State) : Sha256State × Nat × Nat :=
  let s1 := roundFn s (Nat.div kb 0x1000000000000000000000000000000000000000000000000000000000000000000000000000000000000000000000000000000000000000000000000000000000000000000000000000000000000000000000000000000000000000000000000000000000000000000000000000000000000000000000000000000000000000000000000000000000000000000000000000000000000000000000000000000000000000000000000000000000000000000000000000000000000000000000000000000000000000000000000000000000000000000000000000000000000000000000000000000000000000000000000000000000000000000000000) (Nat.div wb 0x1000000000000000000000000000000000000000000000000000000000000000000000000000000000000000000000000000000000000000000000000000000000000000000000000000000000000000000000000000000000000000000000000000000000000000000000000000000000000000000000000000000000000000000000000000000000000000000000000000000000000000000000000000000000000000000000000000000000000000000000000000000000000000000000000000000000000000000000000000000000000000000000000000000000000000000000000000000000000000000000000000000000000000000000000)
  let kb1 := Nat.mul (Nat.mod kb 0x1000000000000000000000000000000000000000000000000000000000000000000000000000000000000000000000000000000000000000000000000000000000000000000000000000000000000000000000000000000000000000000000000000000000000000000000000000000000000000000000000000000000000000000000000000000000000000000000000000000000000000000000000000000000000000000000000000000000000000000000000000000000000000000000000000000000000000000000000000000000000000000000000000000000000000000000000000000000000000000000000000000000000000000000000) 4294967296
  let wb1 := Nat.mul (Nat.mod wb 0x1000000000000000000000000000000000000000000000000000000000000000000000000000000000000000000000000000000000000000000000000000000000000000000000000000000000000000000000000000000000000000000000000000000000000000000000000000000000000000000000000000000000000000000000000000000000000000000000000000000000000000000000000000000000000000000000000000000000000000000000000000000000000000000000000000000000000000000000000000000000000000000000000000000000000000000000000000000000000000000000000000000000000000000000000) 4294967296
  let s2 := roundFn s1 (Nat.div kb1 0x1000000000000000000000000000000000000000000000000000000000000000000000000000000000000000000000000000000000000000000000000000000000000000000000000000000000000000000000000000000000000000000000000000000000000000000000000000000000000000000000000000000000000000000000000000000000000000000000000000000000000000000000000000000000000000000000000000000000000000000000000000000000000000000000000000000000000000000000000000000000000000000000000000000000000000000000000000000000000000000000000000000000000000000000000) (Nat.div wb1 0x1000000000000000000000000000000000000000000000000000000000000000000000000000000000000000000000000000000000000000000000000000000000000000000000000000000000000000000000000000000000000000000000000000000000000000000000000000000000000000000000000000000000000000000000000000000000000000000000000000000000000000000000000000000000000000000000000000000000000000000000000000000000000000000000000000000000000000000000000000000000000000000000000000000000000000000000000000000000000000000000000000000000000000000000000)
  let kb2 := Nat.mul (Nat.mod kb1 0x1000000000000000000000000000000000000000000000000000000000000000000000000000000000000000000000000000000000000000000000000000000000000000000000000000000000000000000000000000000000000000000000000000000000000000000000000000000000000000000000000000000000000000000000000000000000000000000000000000000000000000000000000000000000000000000000000000000000000000000000000000000000000000000000000000000000000000000000000000000000000000000000000000000000000000000000000000000000000000000000000000000000000000000000000) 4294967296
  let wb2 := Nat.mul (Nat.mod wb1 0x1000000000000000000000000000000000000000000000000000000000000000000000000000000000000000000000000000000000000000000000000000000000000000000000000000000000000000000000000000000000000000000000000000000000000000000000000000000000000000000000000000000000000000000000000000000000000000000000000000000000000000000000000000000000000000000000000000000000000000000000000000000000000000000000000000000000000000000000000000000000000000000000000000000000000000000000000000000000000000000000000000000000000000000000000) 4294967296
  let s3 := roundFn s2 (Nat.div kb2 0x1000000000000000000000000000000000000000000000000000000000000000000000000000000000000000000000000000000000000000000000000000000000000000000000000000000000000000000000000000000000000000000000000000000000000000000000000000000000000000000000000000000000000000000000000000000000000000000000000000000000000000000000000000000000000000000000000000000000000000000000000000000000000000000000000000000000000000000000000000000000000000000000000000000000000000000000000000000000000000000000000000000000000000000000000) (Nat.div wb2 0x1000000000000000000000000000000000000000000000000000000000000000000000000000000000000000000000000000000000000000000000000000000000000000000000000000000000000000000000000000000000000000000000000000000000000000000000000000000000000000000000000000000000000000000000000000000000000000000000000000000000000000000000000000000000000000000000000000000000000000000000000000000000000000000000000000000000000000000000000000000000000000000000000000000000000000000000000000000000000000000000000000000000000000000000000)
  let kb3 := Nat.mul (Nat.mod kb2 0x1000000000000000000000000000000000000000000000000000000000000000000000000000000000000000000000000000000000000000000000000000000000000000000000000000000000000000000000000000000000000000000000000000000000000000000000000000000000000000000000000000000000000000000000000000000000000000000000000000000000000000000000000000000000000000000000000000000000000000000000000000000000000000000000000000000000000000000000000000000000000000000000000000000000000000000000000000000000000000000000000000000000000000000000000) 4294967296
  let wb3 := Nat.mul (Nat.mod wb2 0x1000000000000000000000000000000000000000000000000000000000000000000000000000000000000000000000000000000000000000000000000000000000000000000000000000000000000000000000000000000000000000000000000000000000000000000000000000000000000000000000000000000000000000000000000000000000000000000000000000000000000000000000000000000000000000000000000000000000000000000000000000000000000000000000000000000000000000000000000000000000000000000000000000000000000000000000000000000000000000000000000000000000000000000000000) 4294967296
  let s4 := roundFn s3 (Nat.div kb3 0x1000000000000000000000000000000000000000000000000000000000000000000000000000000000000000000000000000000000000000000000000000000000000000000000000000000000000000000000000000000000000000000000000000000000000000000000000000000000000000000000000000000000000000000000000000000000000000000000000000000000000000000000000000000000000000000000000000000000000000000000000000000000000000000000000000000000000000000000000000000000000000000000000000000000000000000000000000000000000000000000000000000000000000000000000) (Nat.div wb3 0x1000000000000000000000000000000000000000000000000000000000000000000000000000000000000000000000000000000000000000000000000000000000000000000000000000000000000000000000000000000000000000000000000000000000000000000000000000000000000000000000000000000000000000000000000000000000000000000000000000000000000000000000000000000000000000000000000000000000000000000000000000000000000000000000000000000000000000000000000000000000000000000000000000000000000000000000000000000000000000000000000000000000000000000000000)
  (s4, Nat.mul (Nat.mod kb3 0x1000000000000000000000000000000000000000000000000000000000000000000000000000000000000000000000000000000000000000000000000000000000000000000000000000000000000000000000000000000000000000000000000000000000000000000000000000000000000000000000000000000000000000000000000000000000000000000000000000000000000000000000000000000000000000000000000000000000000000000000000000000000000000000000000000000000000000000000000000000000000000000000000000000000000000000000000000000000000000000000000000000000000000000000000) 4294967296,
    Nat.mul (Nat.mod wb3 0x1000000000000000000000000000000000000000000000000000000000000000000000000000000000000000000000000000000000000000000000000000000000000000000000000000000000000000000000000000000000000000000000000000000000000000000000000000000000000000000000000000000000000000000000000000000000000000000000000000000000000000000000000000000000000000000000000000000000000000000000000000000000000000000000000000000000000000000000000000000000000000000000000000000000000000000000000000000000000000000000000000000000000000000000000) 4294967296)

/-- `rounds n` performs `4 * n` compression rounds (`rounds 16` runs
all 64); `kb` and `wb` are 64-word registers with round 0 in the most
significant word. -/
def rounds : Nat → Nat → Nat → Sha256State → Sha256State
  | 0, _, _, s => s
  | i + 1, kb, wb, s =>
      let r := rounds4 kb wb s
      r.1.force (rounds i r.2.1 r.2.2 r.1)

def addStates (x y : Sha256State) : Sha256State :=
  ⟨Nat.mod (Nat.add x.a y.a) 4294967296, Nat.mod (Nat.add x.b y.b) 4294967296,
   Nat.mod (Nat.add x.c y.c) 4294967296, Nat.mod (Nat.add x.d y.d) 4294967296,
   Nat.mod (Nat.add x.e y.e) 4294967296, Nat.mod (Nat.add x.f y.f) 4294967296,
   Nat.mod (Nat.add x.g y.g) 4294967296, Nat.mod (Nat.add x.h y.h) 4294967296⟩

/-- Compress one 512-bit block into the running state.  The big-endian
block value is the 16 initial schedule words `w0 … w15`. -/
def compress (s : Sha256State) (block : Nat) : Sha256State :=
  addStates s (rounds 16 sha256K (extendSched 12 block) s)

/-- Run exactly `n` compression steps, consuming 64 bytes off the front
of the buffer each time and returning the final state and remainder. -/
def absorbBlocks : Nat → Sha256State → ByteSeq → Sha256State × ByteSeq
  | 0, s, buf => (s, buf)
  | n + 1, s, buf =>
      absorbBlocks n (compress s (buf.val / 256 ^ (buf.len - 64)))
        ⟨buf.len - 64, buf.val % 256 ^ (buf.len - 64)⟩

def sha256InitState : Sha256State :=
  ⟨0x6a09e667, 0xbb67ae85, 0x3c6ef372, 0xa54ff53a,
   0x510e527f, 0x9b05688c, 0x1f83d9ab, 0x5be0cd19⟩

/-- The digest as a 32-byte big-endian value. -/
def stateToDigest (s : Sha256State) : Nat :=
  ((((((s.a * 2 ^ 32 + s.b) * 2 ^ 32 + s.c) * 2 ^ 32 + s.d) * 2 ^ 32 + s.e)
    * 2 ^ 32 + s.f) * 2 ^ 32 + s.g) * 2 ^ 32 + s.h

/-- Streaming SHA-256 hasher (the functional content of
solana_sdk::hash::Hasher, which wraps a streaming sha2 context):
the running compression state, the buffered tail of fewer than 64
bytes, and the total number of bytes absorbed so far. -/
structure Hasher where
  state : Sha256State
  pending : ByteSeq
  total : Nat
deriving DecidableEq

def Hasher.init : Hasher := ⟨sha256InitState, ByteSeq.empty, 0⟩

/-- Absorb a byte string (Hasher::hash in the source): compress every
full 64-byte block of `pending ++ bytes`, buffer the rest. -/
def Hasher.hash (h : Hasher) (bytes : ByteSeq) : Hasher :=
  let buf := h.pending.append bytes
  let res := absorbBlocks (buf.len / 64) h.state buf
  ⟨res.1, res.2, h.total + bytes.len⟩

/-- Finalize (Hasher::result in the source): absorb the standard SHA-256
padding — byte 0x80, zeros to 56 mod 64, the bit length as a 64-bit
big-endian integer — and serialize the state. -/
def Hasher.result (h : Hasher) : Nat :=
  let k := (119 - h.total % 64) % 64
  let buf := h.pending.append ⟨9 + k, 128 * 256 ^ (8 + k) + h.total * 8 % 2 ^ 64⟩
  stateToDigest (absorbBlocks (buf.len / 64) h.state buf).1

/-- SHA-256 digest (as a 32-byte big-endian value) of a byte string. -/
def sha256 (msg : ByteSeq) : Nat :=
  (Hasher.init.hash msg).result

example :
    sha256 ByteSeq.empty =
      0xe3b0c44298fc1c149afbf4c8996fb92427ae41e4649b934ca495991b7852b855 := by
  decide

example :
    sha256 (ByteSeq.ofList [0x61, 0x62, 0x63]) =
      0xba7816bf8f01cfea414140de5dae2223b00361a396177a9cb410ff61f20015ad := by
  decide

/-! ### Sample hasher (`sample_file`, archiver.rs lines 85-118)

A file opened for random access is modelled by its byte length and a
byte-at-position function (bytes are taken mod 256);
seek-and-read-exactly-32-bytes becomes 32 pointwise lookups.  I/O
failure is an `Except.error` carrying the source's message. -/

instance exceptDecEq {α β : Type} [DecidableEq α] [DecidableEq β] :
    DecidableEq (Except α β) := fun x y =>
  match x, y with
  | .error a, .error b =>
      if h : a = b then isTrue (by subst h; rfl)
      else isFalse (by intro hc; injection hc; exact h (by assumption))
  | .error _, .ok _ => isFalse (by intro hc; exact Except.noConfusion hc)
  | .ok _, .error _ => isFalse (by intro hc; exact Except.noConfusion hc)
  | .ok a, .ok b =>
      if h : a = b then isTrue (by subst h; rfl)
      else isFalse (by intro hc; injection hc; exact h (by assumption))

structure FileModel where
  len : Nat
  byteAt : Nat → Nat

/-- The big-endian value of the `n` bytes at positions
`pos, pos+1, …, pos+n-1`. -/
def readBytes (file : FileModel) (pos : Nat) : Nat → Nat
  | 0 => 0
  | n + 1 =>
      Nat.add (Nat.mul (readBytes file pos n) 256)
        (Nat.mod (file.byteAt (Nat.add pos n)) 256)

/-- The 32-byte sample read after seeking to `offset * sample_size`. -/
def readSample (file : FileModel) (offset : Nat) : ByteSeq :=
  ⟨32, readBytes file (offset * 32) 32⟩

/-- Force a hasher's fields to numeric values before continuing; the
identity on `a` (`hasher_force_eq` below), inserted only so that kernel
evaluation of the sample loop runs in constant stack space. -/
def Hasher.force {α : Type} (h : Hasher) (a : α) : α :=
  h.state.force (seqN h.pending.len (seqN h.pending.val (seqN h.total a)))

/-- The per-offset loop of `sample_file`: bound-check the offset, read
the 32-byte sample, feed it to the running hasher. -/
def sampleLoop (file : FileModel) : Hasher → List Nat → Except String Nat
  | hasher, [] => .ok hasher.result
  | hasher, offset :: rest =>
      if (file.len - 32) / 32 < offset then .error "offset too large"
      else
        let h2 := hasher.hash (readSample file offset)
        h2.force (sampleLoop file h2 rest)

/-- `sample_file`: reject files shorter than 32 bytes, then hash the
32-byte samples at the given offsets into one SHA-256 digest. -/
def sample_file (in_path : FileModel) (sample_offsets : List Nat) :
    Except String Nat :=
  if in_path.len < 32 then .error "file too short!"
  else sampleLoop in_path Hasher.init sample_offsets

/-- Feed each 32-byte sample of a block of offsets into the hasher:
the loop body of `sample_file` without the bound check, used to
evaluate long offset runs in segments. -/
def hashChunk (file : FileModel) : Hasher → List Nat → Hasher
  | h, [] => h
  | h, o :: rest =>
      let h2 := h.hash (readSample file o)
      h2.force (hashChunk file h2 rest)

/-! ### Segment arithmetic (solana_sdk clock helpers)

`get_segment_from_slot` and `get_complete_segment_from_slot` live in the
SDK crate, outside the sources at hand; they are modelled from the
spec. -/

/-- Modelled from the spec: the segment number of a slot is
`floor(slot / slots_per_segment)` (poll acceptance uses
`floor(turn_slot / sps) != 0`; the mining proof carries
`segment_index = floor(slot / slots_per_segment)`). -/
def get_segment_from_slot (rooted_slot slots_per_segment : Nat) : Nat :=
  rooted_slot / slots_per_segment

/-- Modelled from the spec: `max_idx = floor(ts / sps)`; "fails if
`max_idx == 0` (no complete segment yet)". -/
def get_complete_segment_from_slot (rooted_slot slots_per_segment : Nat) :
    Option Nat :=
  if rooted_slot / slots_per_segment = 0 then none
  else some (rooted_slot / slots_per_segment)

/-! ### Deterministic segment selector
(`get_slot_from_signature`, archiver.rs lines 120-134)

The source ORs signature bytes 0, 1, 1, 2 (byte 1 twice) at shifts
0/8/16/24, reduces modulo the number of complete segments, and scales
by `slots_per_segment`.  The `.unwrap()` panic on a missing complete
segment is modelled by `Option`. -/

def get_slot_from_signature (signature_vec : List Nat)
    (storage_turn slots_per_segment : Nat) : Option Nat :=
  let segment_index := signature_vec.getD 0 0 ||| signature_vec.getD 1 0 <<< 8
    ||| signature_vec.getD 1 0 <<< 16 ||| signature_vec.getD 2 0 <<< 24
  (get_complete_segment_from_slot storage_turn slots_per_segment).map
    fun max_segment_index => segment_index % max_segment_index * slots_per_segment

/-! ### Archiver state

The fields of `ArchiverMeta` that the control loop reads or writes
(paths and the commitment configuration are omitted: the loop never
touches them). -/

structure ArchiverMeta where
  slot : Nat
  slots_per_segment : Nat
  signature : List Nat
  blockhash : ByteSeq
  sha_state : Nat
  sampling_offsets : List Nat
  num_chacha_blocks : Nat
deriving DecidableEq

/-! ### Sampling-offset generator
(`create_sampling_offsets`, archiver.rs lines 587-596)

The generator is `rand_chacha`'s ChaChaRng, an external crate.  It is
modelled from the spec as a deterministic stream of u64 values seeded
by the 32-byte blockhash; `gen_range low high` draws a value in
`[low, high)` and, as in rand, panics (modelled as `none`) when
`high <= low`. -/

/-- Modelled from the spec: a stream-cipher PRNG seeded with the
32-byte turn blockhash.  The concrete mixing function stands in for the
ChaCha20 stream; what the claims rely on is determinism in the seed and
the `gen_range` contract. -/
structure ChaChaRngModel where
  seed : Nat
  counter : Nat
deriving DecidableEq

def ChaChaRngModel.from_seed (seed : Nat) : ChaChaRngModel := ⟨seed, 0⟩

def ChaChaRngModel.next_u64 (r : ChaChaRngModel) : Nat × ChaChaRngModel :=
  ((r.seed + r.counter * 6364136223846793005 + 1442695040888963407) % 2 ^ 64,
   ⟨r.seed, r.counter + 1⟩)

/-- Modelled from the spec: rand's `gen_range(low, high)` returns a
value uniform over `[low, high)` and panics when `high <= low`
(the panic is modelled as `none`). -/
def ChaChaRngModel.gen_range (r : ChaChaRngModel) (low high : Nat) :
    Option (Nat × ChaChaRngModel) :=
  if high ≤ low then none
  else
    let v := r.next_u64
    some (low + v.1 % (high - low), v.2)

/-- Modelled from the spec: `NUM_STORAGE_SAMPLES` is the protocol
constant N = 4 (defined in the storage stage, outside these sources). -/
def NUM_STORAGE_SAMPLES : Nat := 4

def sampleOffsetsGo : Nat → ChaChaRngModel → Nat → List Nat → Option (List Nat)
  | 0, _, _, acc => some acc.reverse
  | n + 1, rng, blocks, acc =>
      match rng.gen_range 0 blocks with
      | none => none
      | some vr => sampleOffsetsGo n vr.2 blocks (vr.1 :: acc)

/-- `create_sampling_offsets`: clear the previous offsets, seed the PRNG
from the blockhash, push `NUM_STORAGE_SAMPLES` draws from
`gen_range(0, num_chacha_blocks)`.  The result is the new offset
vector (the caller stores it into `meta`); `none` models the
`gen_range(0, 0)` panic. -/
def create_sampling_offsets (meta : ArchiverMeta) : Option (List Nat) :=
  sampleOffsetsGo NUM_STORAGE_SAMPLES
    (ChaChaRngModel.from_seed meta.blockhash.val) meta.num_chacha_blocks []

/-! ### Proof submission (`submit_mining_proof`, archiver.rs lines 665-721)

The RPC collaborators are abstracted into an environment of balances, a
recent blockhash and the transaction outcome.  Every failure path in
the source logs and returns; none of them propagates an error to the
caller.  The returned `Except` records which log line fired — the
control loop discards it (line 374). -/

structure SubmitEnv where
  storage_balance : Option Nat
  archiver_balance : Option Nat
  recent_blockhash : Option ByteSeq
  send_ok : Bool
deriving DecidableEq

/-- The payload of the mining_proof instruction the source builds at
archiver.rs lines 700-706. -/
structure MiningProof where
  sha_state : Nat
  segment_index : Nat
  signature : List Nat
  blockhash : ByteSeq
deriving DecidableEq

def submit_mining_proof (env : SubmitEnv) (meta : ArchiverMeta) :
    Except String MiningProof :=
  match env.storage_balance with
  | none => .error "Unable to submit mining proof, no storage account"
  | some storage_balance =>
    if storage_balance = 0 then
      .error "Unable to submit mining proof, no storage account"
    else
      match env.archiver_balance with
      | none =>
          .error "Unable to submit mining proof, insufficient Archiver Account balance"
      | some balance =>
        if balance = 0 then
          .error "Unable to submit mining proof, insufficient Archiver Account balance"
        else
          match env.recent_blockhash with
          | none => .error "unable to get recent blockhash, cannot submit proof"
          | some _ =>
            if env.send_ok then
              .ok ⟨meta.sha_state,
                get_segment_from_slot meta.slot meta.slots_per_segment,
                meta.signature, meta.blockhash⟩
            else .error "error while sending mining proof"

/-! ### Turn poller (`poll_for_blockhash_and_slot`, archiver.rs lines 786-842)

Each loop iteration either finds no RPC peers (sleep and retry), gets an
RPC or parse failure (propagated as an error), or receives a response
`(blockhash, turn_slot)` which is returned exactly when the blockhash
differs from `previous_blockhash` and the segment of `turn_slot` is
nonzero; otherwise the loop sleeps and retries.  The cancellation flag
is modelled as the end of the event stream. -/

inductive PollEvent
  | noPeers
  | rpcFailure
  | parseFailure
  | response (blockhash : ByteSeq) (turn_slot : Nat)
deriving DecidableEq

def poll_for_blockhash_and_slot (slots_per_segment : Nat)
    (previous_blockhash : ByteSeq) :
    List PollEvent → Except String (ByteSeq × Nat)
  | [] => .error "exit signalled"
  | .noPeers :: rest =>
      poll_for_blockhash_and_slot slots_per_segment previous_blockhash rest
  | .rpcFailure :: _ => .error "rpc error"
  | .parseFailure :: _ => .error "could not parse response"
  | .response turn_blockhash turn_slot :: rest =>
      if turn_blockhash ≠ previous_blockhash then
        if get_segment_from_slot turn_slot slots_per_segment ≠ 0 then
          .ok (turn_blockhash, turn_slot)
        else
          poll_for_blockhash_and_slot slots_per_segment previous_blockhash rest
      else
        poll_for_blockhash_and_slot slots_per_segment previous_blockhash rest

/-! ### The PROVE_LOOP body (`Archiver::run`, archiver.rs lines 345-402)

One iteration of the control loop after encryption: check the exit
flag, regenerate sampling offsets, sample-hash (break on failure),
submit the mining proof (result discarded), poll for a new turn (break
on failure), store the new blockhash, redeem rewards (no effect on
`meta`).  `panicked` models the `gen_range(0, 0)` panic inside
`create_sampling_offsets`. -/

inductive StepResult
  | panicked
  | exited
  | next (meta : ArchiverMeta)
deriving DecidableEq

structure RunEnv where
  exit_observed : Bool
  submit_env : SubmitEnv
  poll_events : List PollEvent
deriving DecidableEq

def runStep (enc_file : FileModel) (meta : ArchiverMeta) (env : RunEnv) :
    StepResult :=
  if env.exit_observed then .exited
  else
    match create_sampling_offsets meta with
    | none => .panicked
    | some offsets =>
      -- meta.sampling_offsets := offsets
      match sample_file enc_file offsets with
      | .error _ => .exited
      | .ok hash =>
        -- meta.sha_state := hash; the submit result is discarded (line 374)
        let _ := submit_mining_proof env.submit_env
          { meta with sampling_offsets := offsets, sha_state := hash }
        match poll_for_blockhash_and_slot meta.slots_per_segment
            meta.blockhash env.poll_events with
        | .error _ => .exited
        | .ok br =>
          -- meta.blockhash := br.1; redeem_rewards touches no meta field
          .next { meta with
            sampling_offsets := offsets
            sha_state := hash
            blockhash := br.1 }

/-- The whole PROVE_LOOP: iterate `runStep` over an environment trace,
returning the final meta (a break or panic ends the loop). -/
def runLoop (enc_file : FileModel) :
    ArchiverMeta → List RunEnv → ArchiverMeta
  | meta, [] => meta
  | meta, env :: rest =>
      match runStep enc_file meta env with
      | .next meta2 => runLoop enc_file meta2 rest
      | _ => meta

/-- The `meta` assignments of `Archiver::setup` (archiver.rs lines
477-484): sign the first turn blockhash, derive the start slot from the
signature, and write `slot`, `slots_per_segment`, `signature` and
`blockhash` — the only place these fields are ever assigned. -/
def setup_meta (meta : ArchiverMeta) (signature : List Nat)
    (segment_blockhash : ByteSeq) (segment_slot slots_per_segment : Nat) :
    Option ArchiverMeta :=
  (get_slot_from_signature signature segment_slot slots_per_segment).map
    fun slot =>
      { meta with
        slot := slot
        slots_per_segment := slots_per_segment
        signature := signature
        blockhash := segment_blockhash }

/-! ### Pinned buffer (`PinnedVec`, cuda_runtime.rs)

The buffer wraps a plain vector plus two flags.  CUDA page-pinning
(`pin`/`unpin`) manipulates no vector contents, so the model keeps the
element list, the capacity, and the flags.  "The backing pointer or
capacity changed" in check_ptr is modelled as a capacity change, the
only reallocation observable without a memory model.  Whether a DMA
provider is present (perf_libs::api().is_some()) is the `api`
argument. -/

/-- Rust Vec growth: capacity is unchanged when sufficient, otherwise at
least doubles. -/
def growCap (capacity needed : Nat) : Nat :=
  if needed ≤ capacity then capacity else max (2 * capacity) needed

structure PinnedVec (α : Type) where
  x : List α
  capacity : Nat
  pinned : Bool
  pinnable : Bool

def PinnedVec.from_vec {α : Type} (source : List α) : PinnedVec α :=
  ⟨source, source.length, false, false⟩

def PinnedVec.with_capacity {α : Type} (capacity : Nat) : PinnedVec α :=
  ⟨[], capacity, false, false⟩

def PinnedVec.set_pinnable {α : Type} (v : PinnedVec α) : PinnedVec α :=
  { v with pinnable := true }

/-- prepare_realloc: predict the reallocation and unpin. -/
def PinnedVec.prepare_realloc {α : Type} (v : PinnedVec α) (new_size : Nat) :
    PinnedVec α :=
  if v.pinned ∧ v.capacity < new_size then { v with pinned := false } else v

/-- check_ptr: if the DMA api is present, the buffer is pinnable, and
the backing region moved, unpin the old region and pin the new one. -/
def PinnedVec.check_ptr {α : Type} (api : Bool) (v : PinnedVec α)
    (old_capacity : Nat) : PinnedVec α :=
  if api ∧ v.pinnable ∧ v.capacity ≠ old_capacity then
    { v with pinned := true }
  else v

def PinnedVec.push {α : Type} (api : Bool) (v : PinnedVec α) (a : α) :
    PinnedVec α :=
  let v1 := v.prepare_realloc (v.x.length + 1)
  let v2 := { v1 with
    x := v1.x ++ [a]
    capacity := growCap v1.capacity (v1.x.length + 1) }
  v2.check_ptr api v.capacity

def PinnedVec.truncate {α : Type} (v : PinnedVec α) (size : Nat) :
    PinnedVec α :=
  { v with x := v.x.take size }

def PinnedVec.resize {α : Type} (api : Bool) (v : PinnedVec α) (size : Nat)
    (elem : α) : PinnedVec α :=
  let v1 := v.prepare_realloc size
  let v2 := { v1 with
    x := if size ≤ v1.x.length then v1.x.take size
         else v1.x ++ List.replicate (size - v1.x.length) elem
    capacity := growCap v1.capacity size }
  v2.check_ptr api v.capacity

def PinnedVec.appendList {α : Type} (api : Bool) (v : PinnedVec α)
    (other : List α) : PinnedVec α :=
  let v1 := v.prepare_realloc (v.x.length + other.length)
  let v2 := { v1 with
    x := v1.x ++ other
    capacity := growCap v1.capacity (v1.x.length + other.length) }
  v2.check_ptr api v.capacity

/-- Indexed access (the Index impl defers to the inner vector). -/
def PinnedVec.index {α : Type} (v : PinnedVec α) (i : Nat) : Option α :=
  v.x.get? i

/-- Iteration (PinnedIter wraps the inner vector's iterator). -/
def PinnedVec.iterList {α : Type} (v : PinnedVec α) : List α := v.x

/-- The mutating operations a caller can run against the buffer. -/
inductive VecOp (α : Type)
  | push (a : α)
  | resize (size : Nat) (elem : α)
  | truncate (size : Nat)
  | append (other : List α)

def PinnedVec.applyOp {α : Type} (api : Bool) (v : PinnedVec α) :
    VecOp α → PinnedVec α
  | .push a => v.push api a
  | .resize size elem => v.resize api size elem
  | .truncate size => v.truncate size
  | .append other => v.appendList api other

def PinnedVec.applyOps {α : Type} (api : Bool) (v : PinnedVec α)
    (ops : List (VecOp α)) : PinnedVec α :=
  ops.foldl (PinnedVec.applyOp api) v

/-- The same operations on a plain Vec. -/
def listApplyOp {α : Type} (l : List α) : VecOp α → List α
  | .push a => l ++ [a]
  | .resize size elem =>
      if size ≤ l.length then l.take size
      else l ++ List.replicate (size - l.length) elem
  | .truncate size => l.take size
  | .append other => l ++ other

def listApplyOps {α : Type} (l : List α) (ops : List (VecOp α)) : List α :=
  ops.foldl listApplyOp l

/-! ### Concrete fixtures for the scenarios -/

/-- A 64-byte signature beginning 7, 3, 0, 5 (spec scenario S4). -/
def s4_signature : List Nat := [7, 3, 0, 5] ++ List.replicate 60 0

/-- The 8-byte ASCII string "12foobar" (spec scenario S1). -/
def twelveFoobar : List Nat := [49, 50, 102, 111, 111, 98, 97, 114]

/-- The scenario S1 file: 4096 copies of "12foobar", 32768 bytes; byte
`p` of the repetition is byte `p mod 8` of the string. -/
def s1_file : FileModel := ⟨32768, fun p => twelveFoobar.getD (p % 8) 0⟩

/-- The hasher after the first 128 samples (4096 bytes) of the
scenario S1 file. -/
def s1_mid1 : Hasher :=
  ⟨⟨0x754f60af, 0xc07263fc, 0xb1ff2377, 0x3bdef092, 0x9e00b56d, 0x79f69e99, 0x8de6732d, 0x7d280278⟩, ⟨0, 0⟩, 4096⟩

/-- The hasher after the first 256 samples (8192 bytes) of the
scenario S1 file. -/
def s1_mid2 : Hasher :=
  ⟨⟨0x12a3d262, 0x2e87c5d2, 0x84cc00dd, 0x7f19db91, 0x55b59468, 0x2535be9f, 0x212bb9f4, 0x87b9d78a⟩, ⟨0, 0⟩, 8192⟩

/-- The hasher after the first 384 samples (12288 bytes) of the
scenario S1 file. -/
def s1_mid3 : Hasher :=
  ⟨⟨0x9de450f4, 0x4663402d, 0xc24f841f, 0xf2cdbb2d, 0x2222af20, 0xc3c2405a, 0x3e5840b6, 0xb5e9dfc0⟩, ⟨0, 0⟩, 12288⟩

/-- The hasher after the first 512 samples (16384 bytes) of the
scenario S1 file. -/
def s1_mid4 : Hasher :=
  ⟨⟨0xfd9e137c, 0xc9867755, 0x3ca84fa8, 0x503084ec, 0xfd947dae, 0xa7b90710, 0xa306979d, 0xd315bc63⟩, ⟨0, 0⟩, 16384⟩

/-- The hasher after the first 640 samples (20480 bytes) of the
scenario S1 file. -/
def s1_mid5 : Hasher :=
  ⟨⟨0xa3fe5c4d, 0xa4019825, 0x2d8b15e3, 0xa78c9096, 0x4692477c, 0xe8e18152, 0x469ebc45, 0x1ff96606⟩, ⟨0, 0⟩, 20480⟩

/-- The hasher after the first 768 samples (24576 bytes) of the
scenario S1 file. -/
def s1_mid6 : Hasher :=
  ⟨⟨0x8808d9c5, 0x1fd3a822, 0x6417a153, 0xa9c63245, 0x11102f31, 0xa5038025, 0x19476d41, 0xf2eab2db⟩, ⟨0, 0⟩, 24576⟩

/-- The hasher after the first 896 samples (28672 bytes) of the
scenario S1 file. -/
def s1_mid7 : Hasher :=
  ⟨⟨0x1b997f52, 0x7d626d7a, 0x8ea26ab7, 0xd3c668ff, 0xfa31b7da, 0xe963eaa3, 0x6156ae84, 0xf67da44d⟩, ⟨0, 0⟩, 28672⟩

/-- The concatenation of the 32-byte samples at the given offsets, in
order. -/
def concatSamples (file : FileModel) (offsets : List Nat) : ByteSeq :=
  offsets.foldl (fun acc o => acc.append (readSample file o)) ByteSeq.empty

/-- A 64-byte all-zero encrypted file (one cipher block). -/
def file0 : FileModel := ⟨64, fun _ => 0⟩

/-- A meta as it stands when the PROVE_LOOP is entered: one cipher
block, all-zero blockhash. -/
def meta0 : ArchiverMeta :=
  ⟨900, 100, List.replicate 64 0, ⟨32, 0⟩, 0, [], 1⟩

/-- A loop environment whose proof-submit transaction fails
(`send_ok = false`) while sampling and polling succeed. -/
def env0 : RunEnv :=
  ⟨false, ⟨some 1, some 1, some ⟨32, 2⟩, false⟩, [.response ⟨32, 1⟩ 500]⟩

/-- SHA-256 of 128 zero bytes: the digest of the four all-zero samples
drawn from `file0`. -/
def zeroSamplesDigest : Nat :=
  0x38723a2e5e8a17aa7950dc008209944e898f69a7bd10a23c839d341e935fd5ca

/-- `meta0` after the sampling and hashing steps of one loop
iteration. -/
def meta0mid : ArchiverMeta :=
  { meta0 with sampling_offsets := [0, 0, 0, 0], sha_state := zeroSamplesDigest }

/-- `meta0` after one full loop iteration against `env0`. -/
def meta1 : ArchiverMeta :=
  { meta0mid with blockhash := ⟨32, 1⟩ }

/-- `meta0` with an empty encrypted file (no whole cipher block). -/
def meta0empty : ArchiverMeta := { meta0 with num_chacha_blocks := 0 }

/-- A file shorter than 32 bytes. -/
def shortFile : FileModel := ⟨10, fun _ => 0⟩

/-! ## Claims -/

/-- C1: for every 64-byte signature, turn slot `ts` and `sps` with
`floor(ts/sps) >= 1`, the segment selector returns
`((sig[0] | sig[1]<<8 | sig[1]<<16 | sig[2]<<24) mod (ts/sps)) * sps`
(byte 1 used twice), and the result is a multiple of `sps` and strictly
below `ts`. -/
theorem C1_segment_selector (sv : List Nat) (ts sps : Nat)
    (_hlen : sv.length = 64) (_hbytes : ∀ b ∈ sv, b < 256)
    (hseg : 1 ≤ ts / sps) :
    get_slot_from_signature sv ts sps =
      some ((sv.getD 0 0 ||| sv.getD 1 0 <<< 8 ||| sv.getD 1 0 <<< 16
        ||| sv.getD 2 0 <<< 24) % (ts / sps) * sps) ∧
    ∀ r, get_slot_from_signature sv ts sps = some r →
      r % sps = 0 ∧ r < ts := by
  have hne : ¬ ts / sps = 0 := by omega
  have hsps : 0 < sps := by
    rcases Nat.eq_zero_or_pos sps with h | h
    · subst h; simp [Nat.div_zero] at hseg
    · exact h
  have heq : get_slot_from_signature sv ts sps =
      some ((sv.getD 0 0 ||| sv.getD 1 0 <<< 8 ||| sv.getD 1 0 <<< 16
        ||| sv.getD 2 0 <<< 24) % (ts / sps) * sps) := by
    simp [get_slot_from_signature, get_complete_segment_from_slot, hne]
  refine ⟨heq, ?_⟩
  intro r hr
  rw [heq] at hr
  have hr2 := Option.some.inj hr
  subst hr2
  constructor
  · exact Nat.mul_mod_left _ _
  · have h1 : (sv.getD 0 0 ||| sv.getD 1 0 <<< 8 ||| sv.getD 1 0 <<< 16
        ||| sv.getD 2 0 <<< 24) % (ts / sps) < ts / sps :=
      Nat.mod_lt _ (by omega)
    have h2 : (sv.getD 0 0 ||| sv.getD 1 0 <<< 8 ||| sv.getD 1 0 <<< 16
        ||| sv.getD 2 0 <<< 24) % (ts / sps) * sps < ts / sps * sps :=
      Nat.mul_lt_mul_of_lt_of_le h1 (Nat.le_refl sps) hsps
    exact Nat.lt_of_lt_of_le h2 (Nat.div_mul_le_self ts sps)

/-- Witness for C1 at the scenario S4 inputs. -/
theorem C1_segment_selector_witness :
    get_slot_from_signature s4_signature 1000 100 = some 300 ∧
    (300 : Nat) % 100 = 0 ∧ (300 : Nat) < 1000 := by
  have h := C1_segment_selector s4_signature 1000 100 (by decide) (by decide)
    (by decide)
  exact ⟨h.1.trans (by decide), h.2 300 (h.1.trans (by decide))⟩

/-- C2 counterexample: with signature bytes [7, 3, 0, 5, …], `sps = 100`
and `ts = 1000`, the selector does NOT return 900: the source packs
bytes 0, 1, 1, 2 — that is 7, 3, 3, 0 — giving 0x0003_0307 = 197383,
and 197383 mod 10 = 3, so the start slot is 300.  (Spec scenario S4
packs byte 3 (= 5) at shift 24 instead of byte 2 (= 0).) -/
theorem C2_counterexample :
    get_slot_from_signature s4_signature 1000 100 ≠ some 900 := by decide

/-- C2 amended: with `sps = 100`, `ts = 1000` and a signature whose
bytes begin [7, 3, 0, 5], the segment selector returns start slot 300
(from the integer 0x0003_0307 = 197383, which mod 10 is 3), and a
second invocation with the same inputs returns 300 again. -/
theorem C2_amended :
    get_slot_from_signature s4_signature 1000 100 = some 300 ∧
    get_slot_from_signature s4_signature 1000 100 =
      get_slot_from_signature s4_signature 1000 100 :=
  ⟨by decide, rfl⟩

theorem prepare_realloc_x {α : Type} (v : PinnedVec α) (n : Nat) :
    (v.prepare_realloc n).x = v.x := by
  unfold PinnedVec.prepare_realloc; split <;> rfl

theorem prepare_realloc_capacity {α : Type} (v : PinnedVec α) (n : Nat) :
    (v.prepare_realloc n).capacity = v.capacity := by
  unfold PinnedVec.prepare_realloc; split <;> rfl

theorem check_ptr_x {α : Type} (api : Bool) (v : PinnedVec α) (oc : Nat) :
    (v.check_ptr api oc).x = v.x := by
  unfold PinnedVec.check_ptr; split <;> rfl

theorem applyOp_x {α : Type} (api : Bool) (v : PinnedVec α) (op : VecOp α) :
    (v.applyOp api op).x = listApplyOp v.x op := by
  cases op with
  | push a =>
      simp [PinnedVec.applyOp, PinnedVec.push, listApplyOp, check_ptr_x,
        prepare_realloc_x]
  | resize size elem =>
      simp [PinnedVec.applyOp, PinnedVec.resize, listApplyOp, check_ptr_x,
        prepare_realloc_x]
  | truncate size =>
      simp [PinnedVec.applyOp, PinnedVec.truncate, listApplyOp]
  | append other =>
      simp [PinnedVec.applyOp, PinnedVec.appendList, listApplyOp, check_ptr_x,
        prepare_realloc_x]

theorem applyOps_x {α : Type} (api : Bool) (ops : List (VecOp α))
    (v : PinnedVec α) :
    (v.applyOps api ops).x = listApplyOps v.x ops := by
  induction ops generalizing v with
  | nil => rfl
  | cons op rest ih =>
      show ((v.applyOp api op).applyOps api rest).x =
        listApplyOps (listApplyOp v.x op) rest
      rw [ih (v.applyOp api op), applyOp_x]

/-- C9: for every sequence of push, resize, truncate and append
operations, a PinnedVec holds exactly the elements, in order, that a
plain Vec subjected to the same operations holds — for every starting
buffer, every pinned/pinnable flag value and whether or not a DMA
backend is present — and indexed and iterator access see exactly that
list. -/
theorem C9_pinned_vec_refines_vec {α : Type} (api : Bool) (v : PinnedVec α)
    (ops : List (VecOp α)) :
    (v.applyOps api ops).x = listApplyOps v.x ops ∧
    (v.applyOps api ops).iterList = listApplyOps v.x ops ∧
    (∀ i, (v.applyOps api ops).index i = (listApplyOps v.x ops).get? i) ∧
    (∀ v2 : PinnedVec α, v.x = v2.x →
      (v.applyOps api ops).x = (v2.applyOps api ops).x) := by
  refine ⟨applyOps_x api ops v, applyOps_x api ops v, ?_, ?_⟩
  · intro i
    unfold PinnedVec.index
    rw [applyOps_x api ops v]
  · intro v2 hx
    rw [applyOps_x api ops v, applyOps_x api ops v2, hx]

/-- Witness for C9: a pinnable buffer taken through push, resize,
truncate and append matches the plain-Vec result. -/
theorem C9_pinned_vec_refines_vec_witness :
    (PinnedVec.applyOps true ⟨[1, 2], 2, true, true⟩
      [VecOp.push 3, VecOp.resize 5 0, VecOp.truncate 4,
        VecOp.append [9]]).x = [1, 2, 3, 0, 9] ∧
    (PinnedVec.applyOps true ⟨[1, 2], 2, true, true⟩
      [VecOp.push 3, VecOp.resize 5 0, VecOp.truncate 4,
        VecOp.append [9]]).x =
    (PinnedVec.applyOps true ⟨[1, 2], 0, false, false⟩
      [VecOp.push 3, VecOp.resize 5 0, VecOp.truncate 4,
        VecOp.append [9]]).x := by
  have h := C9_pinned_vec_refines_vec true
    (⟨[1, 2], 2, true, true⟩ : PinnedVec Nat)
    [VecOp.push 3, VecOp.resize 5 0, VecOp.truncate 4, VecOp.append [9]]
  exact ⟨h.1.trans (by decide), h.2.2.2 ⟨[1, 2], 0, false, false⟩ rfl⟩

theorem sampleOffsetsGo_isSome (blocks : Nat) (hb : 1 ≤ blocks) :
    ∀ (n : Nat) (rng : ChaChaRngModel) (acc : List Nat),
      (sampleOffsetsGo n rng blocks acc).isSome = true := by
  intro n
  induction n with
  | zero => intro rng acc; rfl
  | succ n ih =>
      intro rng acc
      have h0 : ¬ blocks ≤ 0 := by omega
      simp only [sampleOffsetsGo, ChaChaRngModel.gen_range, if_neg h0]
      exact ih _ _

theorem sampleOffsetsGo_spec (blocks : Nat) :
    ∀ (n : Nat) (rng : ChaChaRngModel) (acc offs : List Nat),
      (∀ o ∈ acc, o < blocks) →
      sampleOffsetsGo n rng blocks acc = some offs →
      offs.length = n + acc.length ∧ ∀ o ∈ offs, o < blocks := by
  intro n
  induction n with
  | zero =>
      intro rng acc offs hacc h
      simp only [sampleOffsetsGo, Option.some.injEq] at h
      subst h
      refine ⟨by simp, ?_⟩
      intro o ho
      exact hacc o (List.mem_reverse.mp ho)
  | succ n ih =>
      intro rng acc offs hacc h
      simp only [sampleOffsetsGo] at h
      cases hgr : ChaChaRngModel.gen_range rng 0 blocks with
      | none => rw [hgr] at h; cases h
      | some vr =>
          rw [hgr] at h
          have hv : vr.1 < blocks := by
            unfold ChaChaRngModel.gen_range at hgr
            split at hgr
            · cases hgr
            · have := Option.some.inj hgr
              have hlt : rng.next_u64.1 % (blocks - 0) < blocks - 0 :=
                Nat.mod_lt _ (by omega)
              rw [← this]
              simpa using hlt
          have hres := ih vr.2 (vr.1 :: acc) offs
            (by
              intro o ho
              rcases List.mem_cons.mp ho with h1 | h1
              · subst h1; exact hv
              · exact hacc o h1) h
          refine ⟨?_, hres.2⟩
          rw [hres.1]
          simp only [List.length_cons]
          omega

theorem create_sampling_offsets_none (meta : ArchiverMeta)
    (h : meta.num_chacha_blocks = 0) :
    create_sampling_offsets meta = none := by
  unfold create_sampling_offsets
  rw [h]
  rfl

theorem create_sampling_offsets_isSome (meta : ArchiverMeta)
    (h : 1 ≤ meta.num_chacha_blocks) :
    (create_sampling_offsets meta).isSome = true :=
  sampleOffsetsGo_isSome _ h _ _ _

/-- C8: whenever the encrypted file holds at least one cipher block,
`create_sampling_offsets` yields exactly NUM_STORAGE_SAMPLES = 4
offsets, each below `num_chacha_blocks`; the result is a function of
the blockhash and the block count alone, so the previous iteration's
offsets are discarded. -/
theorem C8_sampling_offsets :
    (∀ meta : ArchiverMeta, 1 ≤ meta.num_chacha_blocks →
      (create_sampling_offsets meta).isSome = true) ∧
    (∀ (meta : ArchiverMeta) (offs : List Nat),
      create_sampling_offsets meta = some offs →
      offs.length = NUM_STORAGE_SAMPLES ∧
      ∀ o ∈ offs, o < meta.num_chacha_blocks) ∧
    (∀ m1 m2 : ArchiverMeta, m1.blockhash = m2.blockhash →
      m1.num_chacha_blocks = m2.num_chacha_blocks →
      create_sampling_offsets m1 = create_sampling_offsets m2) ∧
    (∀ (meta : ArchiverMeta) (prev : List Nat),
      create_sampling_offsets { meta with sampling_offsets := prev } =
        create_sampling_offsets meta) := by
  refine ⟨fun meta h => create_sampling_offsets_isSome meta h, ?_, ?_, ?_⟩
  · intro meta offs h
    unfold create_sampling_offsets at h
    have := sampleOffsetsGo_spec meta.num_chacha_blocks NUM_STORAGE_SAMPLES
      _ [] offs (by intro o ho; cases ho) h
    exact ⟨by simpa using this.1, this.2⟩
  · intro m1 m2 h1 h2
    unfold create_sampling_offsets
    rw [h1, h2]
  · intro meta prev
    rfl

/-- Witness for C8 at a one-block file. -/
theorem C8_sampling_offsets_witness :
    (create_sampling_offsets meta0).isSome = true ∧
    create_sampling_offsets meta0 = some [0, 0, 0, 0] ∧
    ([0, 0, 0, 0] : List Nat).length = NUM_STORAGE_SAMPLES := by
  refine ⟨C8_sampling_offsets.1 meta0 (by decide), by decide, ?_⟩
  exact (C8_sampling_offsets.2.1 meta0 [0, 0, 0, 0] (by decide)).1

/-- C10: `create_sampling_offsets` is not total at
`num_chacha_blocks = 0`: `gen_range(0, 0)` panics (modelled `none`)
instead of returning an error, so a PROVE_LOOP iteration implicitly
requires at least one cipher block; with one or more blocks the call
succeeds, so the panic is the only non-success outcome. -/
theorem C10_create_sampling_offsets_panics :
    (∀ meta : ArchiverMeta, meta.num_chacha_blocks = 0 →
      create_sampling_offsets meta = none) ∧
    (∀ meta : ArchiverMeta, 1 ≤ meta.num_chacha_blocks →
      (create_sampling_offsets meta).isSome = true) ∧
    (∀ (f : FileModel) (meta : ArchiverMeta) (env : RunEnv),
      env.exit_observed = false → meta.num_chacha_blocks = 0 →
      runStep f meta env = StepResult.panicked) := by
  refine ⟨fun meta h => create_sampling_offsets_none meta h,
    fun meta h => create_sampling_offsets_isSome meta h, ?_⟩
  intro f meta env hexit hz
  unfold runStep
  rw [hexit, create_sampling_offsets_none meta hz]
  rfl

/-- Witness for C10 at an empty encrypted file. -/
theorem C10_create_sampling_offsets_panics_witness :
    create_sampling_offsets meta0empty = none ∧
    (create_sampling_offsets meta0).isSome = true ∧
    runStep file0 meta0empty env0 = StepResult.panicked :=
  ⟨C10_create_sampling_offsets_panics.1 meta0empty rfl,
   C10_create_sampling_offsets_panics.2.1 meta0 (by decide),
   C10_create_sampling_offsets_panics.2.2 file0 meta0empty env0 rfl rfl⟩

theorem poll_ok_conditions (sps : Nat) (prev : ByteSeq) :
    ∀ (events : List PollEvent) (bh : ByteSeq) (ts : Nat),
      poll_for_blockhash_and_slot sps prev events = .ok (bh, ts) →
      bh ≠ prev ∧ get_segment_from_slot ts sps ≠ 0 := by
  intro events
  induction events with
  | nil => intro bh ts h; simp [poll_for_blockhash_and_slot] at h
  | cons e rest ih =>
      intro bh ts h
      cases e with
      | noPeers =>
          simp only [poll_for_blockhash_and_slot] at h
          exact ih bh ts h
      | rpcFailure => simp [poll_for_blockhash_and_slot] at h
      | parseFailure => simp [poll_for_blockhash_and_slot] at h
      | response rbh rts =>
          simp only [poll_for_blockhash_and_slot] at h
          by_cases hne : rbh ≠ prev
          · by_cases hseg : get_segment_from_slot rts sps ≠ 0
            · rw [if_pos hne, if_pos hseg] at h
              simp only [Except.ok.injEq, Prod.mk.injEq] at h
              obtain ⟨rfl, rfl⟩ := h
              exact ⟨hne, hseg⟩
            · rw [if_pos hne, if_neg hseg] at h
              exact ih bh ts h
          · rw [if_neg hne] at h
            exact ih bh ts h

/-- C6: the turn poller returns a pair only when the blockhash differs
from the caller's `previous_blockhash` and the segment of the turn slot
is nonzero; on the stub sequence (A, 500), (A, 500), (B, 500) with
sps = 100 and previous = A, the first two responses are rejected and
(B, 500) is returned. -/
theorem C6_turn_poller :
    (∀ (sps : Nat) (prev : ByteSeq) (events : List PollEvent)
        (bh : ByteSeq) (ts : Nat),
      poll_for_blockhash_and_slot sps prev events = .ok (bh, ts) →
      bh ≠ prev ∧ get_segment_from_slot ts sps ≠ 0) ∧
    (∀ hashA hashB : ByteSeq, hashA ≠ hashB →
      poll_for_blockhash_and_slot 100 hashA
        [.response hashA 500, .response hashA 500, .response hashB 500] =
        .ok (hashB, 500)) := by
  refine ⟨fun sps prev events => poll_ok_conditions sps prev events, ?_⟩
  intro hashA hashB hne
  simp only [poll_for_blockhash_and_slot]
  rw [if_neg (by simp), if_neg (by simp),
    if_pos (Ne.symm hne), if_pos (by decide)]

/-- Witness for C6 at concrete 32-byte hashes. -/
theorem C6_turn_poller_witness :
    poll_for_blockhash_and_slot 100 ⟨32, 0⟩
      [.response ⟨32, 0⟩ 500, .response ⟨32, 0⟩ 500, .response ⟨32, 1⟩ 500] =
      Except.ok (⟨32, 1⟩, 500) ∧
    ((⟨32, 1⟩ : ByteSeq) ≠ ⟨32, 0⟩ ∧ get_segment_from_slot 500 100 ≠ 0) := by
  have h2 := C6_turn_poller.2 ⟨32, 0⟩ ⟨32, 1⟩ (by decide)
  exact ⟨h2, C6_turn_poller.1 100 ⟨32, 0⟩ _ ⟨32, 1⟩ 500 h2⟩

theorem runStep_frame (f : FileModel) (meta : ArchiverMeta) (env : RunEnv)
    (meta2 : ArchiverMeta) (h : runStep f meta env = .next meta2) :
    meta2.slot = meta.slot ∧ meta2.slots_per_segment = meta.slots_per_segment ∧
    meta2.signature = meta.signature ∧
    meta2.num_chacha_blocks = meta.num_chacha_blocks := by
  unfold runStep at h
  split at h
  · cases h
  · split at h
    · cases h
    · split at h
      · cases h
      · split at h
        · cases h
        · injection h with h2
          subst h2
          exact ⟨rfl, rfl, rfl, rfl⟩

theorem runLoop_frame (f : FileModel) :
    ∀ (envs : List RunEnv) (meta : ArchiverMeta),
      (runLoop f meta envs).slot = meta.slot ∧
      (runLoop f meta envs).slots_per_segment = meta.slots_per_segment ∧
      (runLoop f meta envs).signature = meta.signature ∧
      (runLoop f meta envs).num_chacha_blocks = meta.num_chacha_blocks := by
  intro envs
  induction envs with
  | nil => intro meta; exact ⟨rfl, rfl, rfl, rfl⟩
  | cons env rest ih =>
      intro meta
      simp only [runLoop]
      cases hs : runStep f meta env with
      | panicked => exact ⟨rfl, rfl, rfl, rfl⟩
      | exited => exact ⟨rfl, rfl, rfl, rfl⟩
      | next m2 =>
          have hf := runStep_frame f meta env m2 hs
          have hr := ih m2
          exact ⟨hr.1.trans hf.1, (hr.2.1).trans hf.2.1,
            (hr.2.2.1).trans hf.2.2.1, (hr.2.2.2).trans hf.2.2.2⟩

/-- C7: `slot`, `slots_per_segment` and `signature` are assigned during
setup and no PROVE_LOOP iteration changes them — a loop step mutates
only `blockhash`, `sampling_offsets` and `sha_state` — so the segment
being proven is fixed for the Archiver's lifetime. -/
theorem C7_segment_fixed_for_lifetime :
    (∀ (f : FileModel) (meta : ArchiverMeta) (env : RunEnv)
        (meta2 : ArchiverMeta), runStep f meta env = .next meta2 →
      meta2.slot = meta.slot ∧
      meta2.slots_per_segment = meta.slots_per_segment ∧
      meta2.signature = meta.signature ∧
      meta2.num_chacha_blocks = meta.num_chacha_blocks) ∧
    (∀ (f : FileModel) (envs : List RunEnv) (meta : ArchiverMeta),
      (runLoop f meta envs).slot = meta.slot ∧
      (runLoop f meta envs).slots_per_segment = meta.slots_per_segment ∧
      (runLoop f meta envs).signature = meta.signature) ∧
    (∀ (meta meta2 : ArchiverMeta) (sig : List Nat) (bh : ByteSeq)
        (ts sps : Nat), setup_meta meta sig bh ts sps = some meta2 →
      meta2.signature = sig ∧ meta2.slots_per_segment = sps ∧
      meta2.blockhash = bh ∧
      get_slot_from_signature sig ts sps = some meta2.slot) := by
  refine ⟨fun f meta env meta2 h => runStep_frame f meta env meta2 h,
    fun f envs meta => ⟨(runLoop_frame f envs meta).1,
      (runLoop_frame f envs meta).2.1, (runLoop_frame f envs meta).2.2.1⟩,
    ?_⟩
  intro meta meta2 sig bh ts sps h
  unfold setup_meta at h
  cases hs : get_slot_from_signature sig ts sps with
  | none => rw [hs] at h; cases h
  | some slot =>
      rw [hs] at h
      injection h with h2
      subst h2
      exact ⟨rfl, rfl, rfl, rfl⟩

/-- Witness for C7: one loop iteration against `env0` leaves the
segment identity of `meta0` unchanged, and a concrete setup writes the
selector's slot. -/
theorem C7_segment_fixed_for_lifetime_witness :
    meta1.slot = meta0.slot ∧
    meta1.slots_per_segment = meta0.slots_per_segment ∧
    meta1.signature = meta0.signature ∧
    (runLoop file0 meta0 [env0]).signature = meta0.signature ∧
    ({ meta0 with
        slot := 300
        slots_per_segment := 100
        signature := s4_signature
        blockhash := ⟨32, 7⟩ } : ArchiverMeta).signature = s4_signature := by
  have h1 := C7_segment_fixed_for_lifetime.1 file0 meta0 env0 meta1 (by decide)
  have h2 := (C7_segment_fixed_for_lifetime.2.1 file0 [env0] meta0).2.2
  have h3 := (C7_segment_fixed_for_lifetime.2.2 meta0
    { meta0 with
      slot := 300
      slots_per_segment := 100
      signature := s4_signature
      blockhash := ⟨32, 7⟩ }
    s4_signature ⟨32, 7⟩ 1000 100 (by decide)).1
  exact ⟨h1.1, h1.2.1, h1.2.2.1, h2, h3⟩

/-- C3 counterexample: an iteration whose proof-submit transaction
fails (send_and_confirm returns an error, so submit_mining_proof takes
its error-log path) still completes and hands a `next` meta to the
following iteration — the loop does not break on a submit failure, so
the claim that a proof-submit failure terminates the PROVE_LOOP is
false on the code. -/
theorem C3_counterexample :
    runStep file0 meta0 env0 = StepResult.next meta1 ∧
    submit_mining_proof env0.submit_env meta0mid =
      Except.error "error while sending mining proof" :=
  ⟨by decide, by decide⟩

/-- C3 amended: in the PROVE_LOOP, a sample-hash failure and a
turn-poll failure each log and break the loop (no further iteration
follows); a proof-submit failure is only logged and the iteration
completes normally, regardless of the submit outcome. -/
theorem C3_prove_loop_error_handling :
    (∀ (f : FileModel) (meta : ArchiverMeta) (env : RunEnv)
        (offs : List Nat),
      env.exit_observed = false →
      create_sampling_offsets meta = some offs →
      (sample_file f offs).isOk = false →
      runStep f meta env = StepResult.exited) ∧
    (∀ (f : FileModel) (meta : ArchiverMeta) (env : RunEnv)
        (offs : List Nat) (hsh : Nat),
      env.exit_observed = false →
      create_sampling_offsets meta = some offs →
      sample_file f offs = Except.ok hsh →
      (poll_for_blockhash_and_slot meta.slots_per_segment meta.blockhash
        env.poll_events).isOk = false →
      runStep f meta env = StepResult.exited) ∧
    (∀ (f : FileModel) (meta : ArchiverMeta) (env : RunEnv)
        (offs : List Nat) (hsh : Nat) (bh : ByteSeq) (ts : Nat)
        (msg : String),
      env.exit_observed = false →
      create_sampling_offsets meta = some offs →
      sample_file f offs = Except.ok hsh →
      poll_for_blockhash_and_slot meta.slots_per_segment meta.blockhash
        env.poll_events = Except.ok (bh, ts) →
      submit_mining_proof env.submit_env
        { meta with sampling_offsets := offs, sha_state := hsh } =
        Except.error msg →
      runStep f meta env = StepResult.next
        { meta with
          sampling_offsets := offs
          sha_state := hsh
          blockhash := bh }) := by
  refine ⟨?_, ?_, ?_⟩
  · intro f meta env offs hexit hoffs herr
    unfold runStep
    split
    · rfl
    · split
      · rename_i heq
        rw [hoffs] at heq
        cases heq
      · rename_i offsets heq
        rw [hoffs] at heq
        injection heq with heq2
        subst heq2
        split
        · rfl
        · rename_i hash hsf
          rw [hsf] at herr
          simp [Except.isOk, Except.toBool] at herr
  · intro f meta env offs hsh hexit hoffs hok hperr
    unfold runStep
    split
    · rfl
    · split
      · rename_i heq
        rw [hoffs] at heq
        cases heq
      · rename_i offsets heq
        rw [hoffs] at heq
        injection heq with heq2
        subst heq2
        split
        · rfl
        · rename_i hash hsf
          dsimp only
          split
          · rfl
          · rename_i br hp
            rw [hp] at hperr
            simp [Except.isOk, Except.toBool] at hperr
  · intro f meta env offs hsh bh ts msg hexit hoffs hok hpoll _hsubmit
    unfold runStep
    split
    · rename_i hx
      rw [hexit] at hx
      cases hx
    · split
      · rename_i heq
        rw [hoffs] at heq
        cases heq
      · rename_i offsets heq
        rw [hoffs] at heq
        injection heq with heq2
        subst heq2
        split
        · rename_i hsf
          rw [hok] at hsf
          cases hsf
        · rename_i hash hsf
          rw [hok] at hsf
          injection hsf with hsf2
          subst hsf2
          dsimp only
          split
          · rename_i hp
            rw [hpoll] at hp
            cases hp
          · rename_i br hp
            rw [hpoll] at hp
            injection hp with hp2
            subst hp2
            rfl

/-- Witness for the amended C3: a short file exits the loop, an empty
poll stream exits the loop, and a failed submit still yields `next`. -/
theorem C3_prove_loop_error_handling_witness :
    runStep shortFile meta0 env0 = StepResult.exited ∧
    runStep file0 meta0 ⟨false, ⟨some 1, some 1, some ⟨32, 2⟩, true⟩, []⟩ =
      StepResult.exited ∧
    runStep file0 meta0 env0 = StepResult.next meta1 := by
  refine ⟨?_, ?_, ?_⟩
  · exact C3_prove_loop_error_handling.1 shortFile meta0 env0 [0, 0, 0, 0]
      rfl (by decide) (by decide)
  · exact C3_prove_loop_error_handling.2.1 file0 meta0
      ⟨false, ⟨some 1, some 1, some ⟨32, 2⟩, true⟩, []⟩ [0, 0, 0, 0]
      zeroSamplesDigest rfl (by decide) (by decide) (by decide)
  · exact C3_prove_loop_error_handling.2.2 file0 meta0 env0 [0, 0, 0, 0]
      zeroSamplesDigest ⟨32, 1⟩ 500 "error while sending mining proof"
      rfl (by decide) (by decide) (by decide) (by decide)

theorem seqN_eq {α : Type} (n : Nat) (a : α) : seqN n a = a := by
  cases n <;> rfl

theorem bigSigma0_eq_rotr (x : Nat) :
    bigSigma0 x = rotr 2 x ^^^ rotr 13 x ^^^ rotr 22 x := rfl

theorem bigSigma1_eq_rotr (x : Nat) :
    bigSigma1 x = rotr 6 x ^^^ rotr 11 x ^^^ rotr 25 x := rfl

theorem smallSigma0_eq_rotr (x : Nat) :
    smallSigma0 x = rotr 7 x ^^^ rotr 18 x ^^^ x / 2 ^ 3 := rfl

theorem smallSigma1_eq_rotr (x : Nat) :
    smallSigma1 x = rotr 17 x ^^^ rotr 19 x ^^^ x / 2 ^ 10 := rfl

theorem hasher_force_eq {α : Type} (h : Hasher) (a : α) : h.force a = a := by
  unfold Hasher.force Sha256State.force
  simp only [seqN_eq]

theorem sampleLoop_cons (file : FileModel) (h : Hasher) (o : Nat)
    (rest : List Nat) :
    sampleLoop file h (o :: rest) =
      if (file.len - 32) / 32 < o then .error "offset too large"
      else sampleLoop file (h.hash (readSample file o)) rest := by
  simp only [sampleLoop, hasher_force_eq]

theorem sampleLoop_err_of_bad (file : FileModel) :
    ∀ (offsets : List Nat) (h : Hasher) (o : Nat), o ∈ offsets →
      (file.len - 32) / 32 < o →
      (sampleLoop file h offsets).isOk = false := by
  intro offsets
  induction offsets with
  | nil => intro h o ho; cases ho
  | cons x rest ih =>
      intro h o ho hbad
      rw [sampleLoop_cons]
      by_cases hx : (file.len - 32) / 32 < x
      · rw [if_pos hx]; rfl
      · rw [if_neg hx]
        rcases List.mem_cons.mp ho with h1 | h1
        · subst h1; exact absurd hbad hx
        · exact ih _ o h1 hbad

/-- C4: `sample_file` fails on every file shorter than 32 bytes and on
every offset list containing an offset above `(file_len - 32) / 32`;
when neither holds, every offset's 32-byte sample lies inside the
file. -/
theorem C4_sample_file_bounds :
    (∀ (file : FileModel) (offsets : List Nat), file.len < 32 →
      (sample_file file offsets).isOk = false) ∧
    (∀ (file : FileModel) (offsets : List Nat) (o : Nat), o ∈ offsets →
      (file.len - 32) / 32 < o →
      (sample_file file offsets).isOk = false) ∧
    (∀ (file : FileModel) (offsets : List Nat), 32 ≤ file.len →
      (∀ o ∈ offsets, ¬ (file.len - 32) / 32 < o) →
      ∀ o ∈ offsets, o * 32 + 32 ≤ file.len) := by
  refine ⟨?_, ?_, ?_⟩
  · intro file offsets hlen
    unfold sample_file
    rw [if_pos hlen]
    rfl
  · intro file offsets o ho hbad
    unfold sample_file
    by_cases hlen : file.len < 32
    · rw [if_pos hlen]; rfl
    · rw [if_neg hlen]
      exact sampleLoop_err_of_bad file offsets Hasher.init o ho hbad
  · intro file offsets hlen hgood o ho
    have h1 : o ≤ (file.len - 32) / 32 := Nat.le_of_not_lt (hgood o ho)
    have h2 : o * 32 ≤ file.len - 32 :=
      (Nat.le_div_iff_mul_le (by norm_num)).mp h1
    omega

/-- Witness for C4: a 10-byte file fails, an out-of-range offset on a
64-byte file fails, and an in-range offset on the scenario S1 file fits
inside it. -/
theorem C4_sample_file_bounds_witness :
    (sample_file shortFile [0]).isOk = false ∧
    (sample_file file0 [0, 2]).isOk = false ∧
    (5 : Nat) * 32 + 32 ≤ s1_file.len :=
  ⟨C4_sample_file_bounds.1 shortFile [0] (by decide),
   C4_sample_file_bounds.2.1 file0 [0, 2] 2 (by decide) (by decide),
   C4_sample_file_bounds.2.2 s1_file [5] (by decide) (by decide) 5
     (by decide)⟩

theorem ByteSeq.append_assoc (x y z : ByteSeq) :
    (x.append y).append z = x.append (y.append z) := by
  simp only [ByteSeq.append, pow_add]
  congr 1
  · omega
  · ring

theorem ByteSeq.append_valid {x y : ByteSeq} (hx : x.Valid) (hy : y.Valid) :
    (x.append y).Valid := by
  unfold ByteSeq.Valid at hx hy ⊢
  simp only [ByteSeq.append, pow_add]
  calc x.val * 256 ^ y.len + y.val < x.val * 256 ^ y.len + 256 ^ y.len := by
        omega
    _ = (x.val + 1) * 256 ^ y.len := by ring
    _ ≤ 256 ^ x.len * 256 ^ y.len := Nat.mul_le_mul_right _ hx

theorem byteseq_mod_valid (l v : Nat) : (ByteSeq.mk l (v % 256 ^ l)).Valid :=
  Nat.mod_lt _ (Nat.pos_pow_of_pos _ (by norm_num))

theorem split_div (a b m E : Nat) (hb : b < 256 ^ E) :
    (a * 256 ^ E + b) / 256 ^ (m + E) = a / 256 ^ m := by
  have hE : 0 < 256 ^ E := Nat.pos_pow_of_pos _ (by norm_num)
  rw [pow_add, Nat.mul_comm (256 ^ m), ← Nat.div_div_eq_div_mul,
    Nat.mul_comm a, Nat.mul_add_div hE, Nat.div_eq_of_lt hb, Nat.add_zero]

theorem split_mod (a b m E : Nat) (hb : b < 256 ^ E) :
    (a * 256 ^ E + b) % 256 ^ (m + E) = a % 256 ^ m * 256 ^ E + b := by
  have hm : 0 < 256 ^ m := Nat.pos_pow_of_pos _ (by norm_num)
  have hd := Nat.div_add_mod a (256 ^ m)
  have hsplit : a * 256 ^ E + b =
      256 ^ (m + E) * (a / 256 ^ m) + (a % 256 ^ m * 256 ^ E + b) := by
    calc a * 256 ^ E + b =
        (256 ^ m * (a / 256 ^ m) + a % 256 ^ m) * 256 ^ E + b := by rw [hd]
      _ = 256 ^ (m + E) * (a / 256 ^ m) + (a % 256 ^ m * 256 ^ E + b) := by
          rw [pow_add]; ring
  have hlt : a % 256 ^ m * 256 ^ E + b < 256 ^ (m + E) := by
    have h1 : a % 256 ^ m < 256 ^ m := Nat.mod_lt _ hm
    calc a % 256 ^ m * 256 ^ E + b < a % 256 ^ m * 256 ^ E + 256 ^ E := by
          omega
      _ = (a % 256 ^ m + 1) * 256 ^ E := by ring
      _ ≤ 256 ^ m * 256 ^ E := Nat.mul_le_mul_right _ h1
      _ = 256 ^ (m + E) := (pow_add 256 m E).symm
  rw [hsplit, Nat.mul_add_mod, Nat.mod_eq_of_lt hlt]

theorem absorbBlocks_snd :
    ∀ (n : Nat) (s : Sha256State) (buf : ByteSeq), buf.Valid →
      (absorbBlocks n s buf).2 =
        ⟨buf.len - 64 * n, buf.val % 256 ^ (buf.len - 64 * n)⟩ := by
  intro n
  induction n with
  | zero =>
      intro s buf hv
      simp only [absorbBlocks, Nat.mul_zero, Nat.sub_zero]
      cases buf with
      | mk l v =>
          simp only [ByteSeq.mk.injEq, true_and]
          exact (Nat.mod_eq_of_lt hv).symm
  | succ n ih =>
      intro s buf hv
      simp only [absorbBlocks]
      rw [ih _ _ (byteseq_mod_valid _ _)]
      simp only [ByteSeq.mk.injEq]
      constructor
      · omega
      · rw [Nat.mod_mod_of_dvd _ (pow_dvd_pow 256 (by omega))]
        congr 1
        congr 1
        omega

theorem absorbBlocks_add :
    ∀ (a b : Nat) (s : Sha256State) (buf : ByteSeq),
      absorbBlocks (a + b) s buf =
        absorbBlocks b (absorbBlocks a s buf).1 (absorbBlocks a s buf).2 := by
  intro a
  induction a with
  | zero => intro b s buf; rw [Nat.zero_add]; rfl
  | succ a ih =>
      intro b s buf
      rw [Nat.succ_add]
      simp only [absorbBlocks]
      exact ih b _ _

theorem absorbBlocks_fst_append {ext : ByteSeq} (hext : ext.Valid) :
    ∀ (n : Nat) (s : Sha256State) (buf : ByteSeq), 64 * n ≤ buf.len →
      (absorbBlocks n s (buf.append ext)).1 = (absorbBlocks n s buf).1 := by
  intro n
  induction n with
  | zero => intro s buf hn; rfl
  | succ n ih =>
      intro s buf hn
      have h64 : 64 ≤ buf.len := by omega
      have hblock : (buf.append ext).val / 256 ^ ((buf.append ext).len - 64) =
          buf.val / 256 ^ (buf.len - 64) := by
        show (buf.val * 256 ^ ext.len + ext.val) / 256 ^ (buf.len + ext.len - 64)
          = buf.val / 256 ^ (buf.len - 64)
        rw [show buf.len + ext.len - 64 = (buf.len - 64) + ext.len by omega]
        exact split_div _ _ _ _ hext
      have hrest : (⟨(buf.append ext).len - 64,
          (buf.append ext).val % 256 ^ ((buf.append ext).len - 64)⟩ : ByteSeq) =
          (⟨buf.len - 64, buf.val % 256 ^ (buf.len - 64)⟩ : ByteSeq).append ext := by
        simp only [ByteSeq.append, ByteSeq.mk.injEq]
        constructor
        · show buf.len + ext.len - 64 = buf.len - 64 + ext.len
          omega
        · show (buf.val * 256 ^ ext.len + ext.val) % 256 ^ (buf.len + ext.len - 64)
            = buf.val % 256 ^ (buf.len - 64) * 256 ^ ext.len + ext.val
          rw [show buf.len + ext.len - 64 = (buf.len - 64) + ext.len by omega]
          exact split_mod _ _ _ _ hext
      simp only [absorbBlocks]
      rw [hblock, hrest]
      exact ih _ _ (by simp only [ByteSeq.len]; omega)

theorem hash_hash (h : Hasher) (b1 b2 : ByteSeq)
    (hp : h.pending.Valid) (h1 : b1.Valid) (h2 : b2.Valid) :
    (h.hash b1).hash b2 = h.hash (b1.append b2) := by
  simp only [Hasher.hash]
  set A := h.pending.append b1 with hAdef
  have hA : A.Valid := ByteSeq.append_valid hp h1
  set n1 := A.len / 64 with hn1
  set r := A.len % 64 with hr
  set E := b2.len with hE
  have hd := Nat.div_add_mod A.len 64
  have hassoc : h.pending.append (b1.append b2) = A.append b2 :=
    (ByteSeq.append_assoc _ _ _).symm
  have hcount : (A.append b2).len / 64 = n1 + (r + E) / 64 := by
    show (A.len + E) / 64 = n1 + (r + E) / 64
    rw [show A.len + E = 64 * n1 + (r + E) by omega]
    exact Nat.mul_add_div (by norm_num) _ _
  have hfst : (absorbBlocks n1 h.state (A.append b2)).1 =
      (absorbBlocks n1 h.state A).1 :=
    absorbBlocks_fst_append h2 n1 h.state A (by omega)
  have hsndA : (absorbBlocks n1 h.state A).2 =
      ⟨r, A.val % 256 ^ r⟩ := by
    rw [absorbBlocks_snd n1 h.state A hA]
    have : A.len - 64 * n1 = r := by omega
    rw [this]
  have hsndApp : (absorbBlocks n1 h.state (A.append b2)).2 =
      (⟨r, A.val % 256 ^ r⟩ : ByteSeq).append b2 := by
    rw [absorbBlocks_snd n1 h.state _ (ByteSeq.append_valid hA h2)]
    show (⟨A.len + E - 64 * n1,
        (A.val * 256 ^ E + b2.val) % 256 ^ (A.len + E - 64 * n1)⟩ : ByteSeq) =
      ⟨r + E, A.val % 256 ^ r * 256 ^ E + b2.val⟩
    rw [show A.len + E - 64 * n1 = r + E by omega]
    simp only [ByteSeq.mk.injEq, true_and]
    exact split_mod _ _ _ _ h2
  rw [hassoc, hcount, absorbBlocks_add, hfst, hsndApp, hsndA]
  simp [ByteSeq.append, Nat.add_assoc]

theorem readBytes_lt (file : FileModel) (pos : Nat) :
    ∀ n : Nat, readBytes file pos n < 256 ^ n := by
  intro n
  induction n with
  | zero => simp [readBytes]
  | succ n ih =>
      simp only [readBytes]
      show readBytes file pos n * 256 + file.byteAt (pos + n) % 256 <
        256 ^ (n + 1)
      have hb : file.byteAt (pos + n) % 256 < 256 := Nat.mod_lt _ (by norm_num)
      calc readBytes file pos n * 256 + file.byteAt (pos + n) % 256
          < (readBytes file pos n + 1) * 256 := by omega
        _ ≤ 256 ^ n * 256 := Nat.mul_le_mul_right _ ih
        _ = 256 ^ (n + 1) := (pow_succ 256 n).symm

theorem readSample_valid (file : FileModel) (o : Nat) :
    (readSample file o).Valid :=
  readBytes_lt file (o * 32) 32

theorem init_pending_valid : Hasher.init.pending.Valid := by
  unfold ByteSeq.Valid
  decide

theorem init_hash_empty : Hasher.init.hash ByteSeq.empty = Hasher.init := by
  decide

theorem sampleLoop_digest (file : FileModel) :
    ∀ (offsets : List Nat) (pre : ByteSeq) (d : Nat), pre.Valid →
      sampleLoop file (Hasher.init.hash pre) offsets = .ok d →
      d = sha256 (offsets.foldl
        (fun acc o => acc.append (readSample file o)) pre) := by
  intro offsets
  induction offsets with
  | nil =>
      intro pre d _hv h
      simp only [sampleLoop] at h
      injection h with h2
      exact h2.symm
  | cons o rest ih =>
      intro pre d hv h
      rw [sampleLoop_cons] at h
      split at h
      · cases h
      · rw [hash_hash Hasher.init pre (readSample file o) init_pending_valid
          hv (readSample_valid file o)] at h
        have := ih (pre.append (readSample file o)) d
          (ByteSeq.append_valid hv (readSample_valid file o)) h
        simpa using this

theorem hashChunk_cons (file : FileModel) (h : Hasher) (o : Nat)
    (rest : List Nat) :
    hashChunk file h (o :: rest) =
      hashChunk file (h.hash (readSample file o)) rest := by
  simp only [hashChunk, hasher_force_eq]

theorem sampleLoop_append (file : FileModel) :
    ∀ (l1 l2 : List Nat) (h : Hasher),
      (∀ o ∈ l1, ¬ (file.len - 32) / 32 < o) →
      sampleLoop file h (l1 ++ l2) =
        sampleLoop file (hashChunk file h l1) l2 := by
  intro l1
  induction l1 with
  | nil => intro l2 h _; rfl
  | cons o rest ih =>
      intro l2 h hgood
      rw [List.cons_append, sampleLoop_cons,
        if_neg (hgood o (List.mem_cons_self o rest)), hashChunk_cons]
      exact ih l2 _ (fun x hx => hgood x (List.mem_cons_of_mem o hx))

theorem s1_chunk1 :
    hashChunk s1_file Hasher.init (List.range' 0 128) = s1_mid1 := by
  decide

theorem s1_chunk2 :
    hashChunk s1_file s1_mid1 (List.range' 128 128) = s1_mid2 := by
  decide

theorem s1_chunk3 :
    hashChunk s1_file s1_mid2 (List.range' 256 128) = s1_mid3 := by
  decide

theorem s1_chunk4 :
    hashChunk s1_file s1_mid3 (List.range' 384 128) = s1_mid4 := by
  decide

theorem s1_chunk5 :
    hashChunk s1_file s1_mid4 (List.range' 512 128) = s1_mid5 := by
  decide

theorem s1_chunk6 :
    hashChunk s1_file s1_mid5 (List.range' 640 128) = s1_mid6 := by
  decide

theorem s1_chunk7 :
    hashChunk s1_file s1_mid6 (List.range' 768 128) = s1_mid7 := by
  decide

theorem s1_chunk8 :
    sampleLoop s1_file s1_mid7 (List.range' 896 128) = Except.ok
      0xadfbb6a50a36219685e26a9663c0b301e690977e12bf3643f98ce6a0381eaa34 := by
  decide

/-- C5: on success, `sample_file` returns the SHA-256 digest of the
concatenation of the 32-byte samples at byte positions `o * 32`, in
offset order; on the scenario S1 file — 4096 copies of "12foobar",
32768 bytes, whose byte at `8 i + j` is byte `j` of the string — with
offsets 0 … 1023 it returns exactly the digest
AD FB B6 A5 0A 36 21 96 85 E2 6A 96 63 C0 B3 01
E6 90 97 7E 12 BF 36 43 F9 8C E6 A0 38 1E AA 34. -/
theorem C5_sample_file_digest :
    (∀ (file : FileModel) (offsets : List Nat) (d : Nat),
      sample_file file offsets = Except.ok d →
      d = sha256 (concatSamples file offsets)) ∧
    sample_file s1_file (List.range 1024) = Except.ok
      0xadfbb6a50a36219685e26a9663c0b301e690977e12bf3643f98ce6a0381eaa34 ∧
    s1_file.len = 32768 ∧
    (∀ i j : Nat, j < 8 →
      s1_file.byteAt (8 * i + j) = twelveFoobar.getD j 0) := by
  refine ⟨?_, ?_, rfl, ?_⟩
  · intro file offsets d h
    unfold sample_file at h
    split at h
    · cases h
    · rw [← init_hash_empty] at h
      have := sampleLoop_digest file offsets ByteSeq.empty d
        (by unfold ByteSeq.Valid; decide) h
      simpa [concatSamples] using this
  · unfold sample_file
    rw [if_neg (show ¬ s1_file.len < 32 by decide), List.range_eq_range']
    have d1 : List.range' 0 1024 = List.range' 0 128 ++ List.range' 128 896 :=
      by simpa using (List.range'_append 0 128 896 1).symm
    have d2 : List.range' 128 896 =
        List.range' 128 128 ++ List.range' 256 768 :=
      by simpa using (List.range'_append 128 128 768 1).symm
    have d3 : List.range' 256 768 =
        List.range' 256 128 ++ List.range' 384 640 :=
      by simpa using (List.range'_append 256 128 640 1).symm
    have d4 : List.range' 384 640 =
        List.range' 384 128 ++ List.range' 512 512 :=
      by simpa using (List.range'_append 384 128 512 1).symm
    have d5 : List.range' 512 512 =
        List.range' 512 128 ++ List.range' 640 384 :=
      by simpa using (List.range'_append 512 128 384 1).symm
    have d6 : List.range' 640 384 =
        List.range' 640 128 ++ List.range' 768 256 :=
      by simpa using (List.range'_append 640 128 256 1).symm
    have d7 : List.range' 768 256 =
        List.range' 768 128 ++ List.range' 896 128 :=
      by simpa using (List.range'_append 768 128 128 1).symm
    rw [d1, sampleLoop_append s1_file (List.range' 0 128)
      (List.range' 128 896) Hasher.init (by decide), s1_chunk1]
    rw [d2, sampleLoop_append s1_file (List.range' 128 128)
      (List.range' 256 768) s1_mid1 (by decide), s1_chunk2]
    rw [d3, sampleLoop_append s1_file (List.range' 256 128)
      (List.range' 384 640) s1_mid2 (by decide), s1_chunk3]
    rw [d4, sampleLoop_append s1_file (List.range' 384 128)
      (List.range' 512 512) s1_mid3 (by decide), s1_chunk4]
    rw [d5, sampleLoop_append s1_file (List.range' 512 128)
      (List.range' 640 384) s1_mid4 (by decide), s1_chunk5]
    rw [d6, sampleLoop_append s1_file (List.range' 640 128)
      (List.range' 768 256) s1_mid5 (by decide), s1_chunk6]
    rw [d7, sampleLoop_append s1_file (List.range' 768 128)
      (List.range' 896 128) s1_mid6 (by decide), s1_chunk7]
    exact s1_chunk8
  · intro i j hj
    show twelveFoobar.getD ((8 * i + j) % 8) 0 = twelveFoobar.getD j 0
    congr 1
    omega

/-- Witness for C5's general part: the digest of a single all-zero
sample equals the SHA-256 of the sample concatenation. -/
theorem C5_sample_file_digest_witness :
    (0x66687aadf862bd776c8fc18b8e9f8e20089714856ee233b3902a591d0d5f2925 :
      Nat) = sha256 (concatSamples file0 [0]) :=
  C5_sample_file_digest.1 file0 [0]
    0x66687aadf862bd776c8fc18b8e9f8e20089714856ee233b3902a591d0d5f2925
    (by decide)
